import Mathlib

/-!
Verification of the gap-detection and batch-reconciliation core of
iwvelando/imessage-archiver (internal/archiver/archiver.go and
internal/config/config.go), translated as a shallow embedding.

The repository ships two revisions of `archiver.go` concatenated in the
source snapshot; they differ only in `exportMessages` diagnostics and in
`isDirectoryEmpty` (the first revision uses a 10240-byte threshold for
`orphaned.html` and a plain scan loop; the second uses a 1024-byte
threshold, an early-exit scan loop and a final decision chain).  Both
revisions of `isDirectoryEmpty` are embedded below as `isDirectoryEmptyV1`
and `isDirectoryEmptyV2`.  The rest of the embedding follows the first
revision, whose line numbers the claims cite.

Effectful operations (os.MkdirAll, os.ReadDir, os.Stat, os.RemoveAll,
running imessage-exporter / ssh / rsync) are embedded by explicit state
passing over a filesystem tree plus oracle records describing the outcome
of each external invocation.
-/

namespace IMessageArchiver

/-! ## Directory entries as seen by isDirectoryEmpty

An `os.ReadDir` entry carries a name and either a file or a directory
shape.  For a file, `fileEntry sz` records the result of `os.Stat` /
`entry.Info` (`none` models a stat error); for a directory, `dirEntry c`
records the result of `os.ReadDir` on it (`none` models a read error,
`some n` a successful listing with `n` entries). -/

inductive EntryKind where
  | fileEntry (size : Option Nat)
  | dirEntry (entryCount : Option Nat)
  deriving DecidableEq

structure DirEntry where
  name : String
  kind : EntryKind
  deriving DecidableEq

/-- Loop state of the first-revision `isDirectoryEmpty` scan
(archiver.go lines 299-352). -/
structure V1State where
  hasOnlyEmptyArtifacts : Bool
  hasAttachments : Bool
  hasOrphaned : Bool
  deriving DecidableEq

/-- One iteration of the first-revision scan loop: the `switch` on the
entry name (archiver.go lines 303-352).  A `break` inside a Go `switch`
leaves the switch only, so the loop always continues to the next entry. -/
def v1Step (s : V1State) (e : DirEntry) : V1State :=
  if e.name = "attachments" then
    match e.kind with
    | .dirEntry none => { s with hasOnlyEmptyArtifacts := false }
    | .dirEntry (some n) =>
        if 0 < n then { s with hasOnlyEmptyArtifacts := false }
        else { s with hasAttachments := true }
    | .fileEntry _ => { s with hasOnlyEmptyArtifacts := false }
  else if e.name = "orphaned.html" then
    match e.kind with
    | .fileEntry none => { s with hasOnlyEmptyArtifacts := false }
    | .fileEntry (some sz) =>
        if 10240 < sz then { s with hasOnlyEmptyArtifacts := false }
        else { s with hasOrphaned := true }
    | .dirEntry _ => { s with hasOnlyEmptyArtifacts := false }
  else { s with hasOnlyEmptyArtifacts := false }

/-- First-revision `isDirectoryEmpty` (archiver.go lines 284-362), on a
successfully listed directory. -/
def isDirectoryEmptyV1 (entries : List DirEntry) : Bool :=
  if entries.isEmpty then true
  else
    let s := entries.foldl v1Step ⟨true, false, false⟩
    s.hasOnlyEmptyArtifacts && (s.hasAttachments || s.hasOrphaned)

/-- Loop state of the second-revision `isDirectoryEmpty` scan
(archiver.go lines 730-793 of the concatenated source). -/
structure V2State where
  hasOnlyEmptyArtifacts : Bool
  hasAttachmentsDir : Bool
  hasOrphanedHTML : Bool
  foundOtherContent : Bool
  deriving DecidableEq

/-- One iteration of the second-revision scan loop.  Note that
`hasAttachmentsDir` and `hasOrphanedHTML` are set before the sub-checks,
mirroring the Go code. -/
def v2Step (s : V2State) (e : DirEntry) : V2State :=
  if e.name = "attachments" then
    match e.kind with
    | .dirEntry none =>
        { s with hasAttachmentsDir := true, hasOnlyEmptyArtifacts := false }
    | .dirEntry (some n) =>
        if 0 < n then
          { s with hasAttachmentsDir := true, hasOnlyEmptyArtifacts := false }
        else { s with hasAttachmentsDir := true }
    | .fileEntry _ =>
        { s with hasOnlyEmptyArtifacts := false, foundOtherContent := true }
  else if e.name = "orphaned.html" then
    match e.kind with
    | .fileEntry none =>
        { s with hasOrphanedHTML := true, hasOnlyEmptyArtifacts := false }
    | .fileEntry (some sz) =>
        if 1024 < sz then
          { s with hasOrphanedHTML := true, hasOnlyEmptyArtifacts := false }
        else { s with hasOrphanedHTML := true }
    | .dirEntry _ =>
        { s with hasOnlyEmptyArtifacts := false, foundOtherContent := true }
  else { s with hasOnlyEmptyArtifacts := false, foundOtherContent := true }

/-- Second-revision scan loop with its early exit
(`if !hasOnlyEmptyArtifacts: break`). -/
def v2Loop (s : V2State) : List DirEntry → V2State
  | [] => s
  | e :: rest =>
      let s2 := v2Step s e
      if s2.hasOnlyEmptyArtifacts then v2Loop s2 rest else s2

/-- Second-revision `isDirectoryEmpty` (archiver.go lines 702-823 of the
concatenated source), on a successfully listed directory.  The final
if/else chain is transcribed branch by branch. -/
def isDirectoryEmptyV2 (entries : List DirEntry) : Bool :=
  if entries.isEmpty then true
  else
    let s := v2Loop ⟨true, false, false, false⟩ entries
    if s.foundOtherContent then false
    else if s.hasAttachmentsDir && s.hasOrphanedHTML && s.hasOnlyEmptyArtifacts then
      true
    else if s.hasAttachmentsDir && !s.hasOrphanedHTML && s.hasOnlyEmptyArtifacts then
      true
    else if !s.hasAttachmentsDir && s.hasOrphanedHTML && s.hasOnlyEmptyArtifacts then
      true
    else if !s.hasAttachmentsDir && !s.hasOrphanedHTML && !entries.isEmpty
        && s.hasOnlyEmptyArtifacts then
      true
    else if !entries.isEmpty && !s.hasOnlyEmptyArtifacts then false
    else false

/-- Spec-side predicate, following the wording of section 4.4 of the spec:
a recognized empty artifact is either an entry named `attachments` that is
a directory successfully listed as empty, or an entry named
`orphaned.html` that is a plain file successfully stat-ed with size not
above the threshold. -/
def isEmptyArtifact (threshold : Nat) (e : DirEntry) : Bool :=
  (e.name = "attachments" && e.kind = .dirEntry (some 0)) ||
  (e.name = "orphaned.html" &&
    match e.kind with
    | .fileEntry (some sz) => sz ≤ threshold
    | _ => false)

theorem v1Step_hOEA (s : V1State) (e : DirEntry) :
    (v1Step s e).hasOnlyEmptyArtifacts
      = (s.hasOnlyEmptyArtifacts && isEmptyArtifact 10240 e) := by
  obtain ⟨nm, k⟩ := e
  by_cases h1 : nm = "attachments" <;> by_cases h2 : nm = "orphaned.html" <;>
    rcases k with (_ | sz) | (_ | n) <;>
    simp_all [v1Step, isEmptyArtifact] <;>
    split <;> simp_all <;> omega

theorem v1_foldl_hOEA (entries : List DirEntry) (s : V1State) :
    (entries.foldl v1Step s).hasOnlyEmptyArtifacts
      = (s.hasOnlyEmptyArtifacts && entries.all (isEmptyArtifact 10240)) := by
  induction entries generalizing s with
  | nil => simp
  | cons e rest ih =>
      simp [List.foldl_cons, ih, v1Step_hOEA, Bool.and_assoc]

theorem v1Step_flag_mono (s : V1State) (e : DirEntry)
    (h : (s.hasAttachments || s.hasOrphaned) = true) :
    ((v1Step s e).hasAttachments || (v1Step s e).hasOrphaned) = true := by
  obtain ⟨nm, k⟩ := e
  by_cases h1 : nm = "attachments" <;> by_cases h2 : nm = "orphaned.html" <;>
    rcases k with (_ | sz) | (_ | n) <;>
    simp_all [v1Step] <;> split <;> simp_all

theorem v1_foldl_flag (entries : List DirEntry) (s : V1State)
    (h : (s.hasAttachments || s.hasOrphaned) = true) :
    ((entries.foldl v1Step s).hasAttachments
      || (entries.foldl v1Step s).hasOrphaned) = true := by
  induction entries generalizing s with
  | nil => simpa using h
  | cons e rest ih => exact ih _ (v1Step_flag_mono s e h)

theorem v1Step_artifact_flag (s : V1State) (e : DirEntry)
    (h : isEmptyArtifact 10240 e = true) :
    ((v1Step s e).hasAttachments || (v1Step s e).hasOrphaned) = true := by
  obtain ⟨nm, k⟩ := e
  by_cases h1 : nm = "attachments" <;> by_cases h2 : nm = "orphaned.html" <;>
    rcases k with (_ | sz) | (_ | n) <;>
    simp_all [v1Step, isEmptyArtifact] <;>
    split <;> simp_all <;> omega

/-- Characterization of the first-revision classifier: a listed directory
is classified empty exactly when every entry is a recognized empty
artifact (10 KiB threshold). -/
theorem isDirectoryEmptyV1_iff (entries : List DirEntry) :
    isDirectoryEmptyV1 entries = true
      ↔ entries.all (isEmptyArtifact 10240) = true := by
  cases entries with
  | nil => simp [isDirectoryEmptyV1]
  | cons e rest =>
      constructor
      · intro h
        unfold isDirectoryEmptyV1 at h
        rw [if_neg (by simp)] at h
        simp only [Bool.and_eq_true] at h
        rw [v1_foldl_hOEA] at h
        simpa using h.1
      · intro h
        have hart : isEmptyArtifact 10240 e = true := by
          simp only [List.all_cons, Bool.and_eq_true] at h; exact h.1
        unfold isDirectoryEmptyV1
        rw [if_neg (by simp)]
        simp only [Bool.and_eq_true]
        refine ⟨?_, ?_⟩
        · rw [v1_foldl_hOEA]; simpa using h
        · simp only [List.foldl_cons]
          exact v1_foldl_flag rest _ (v1Step_artifact_flag _ e hart)

theorem v2Step_hOEA (s : V2State) (e : DirEntry) :
    (v2Step s e).hasOnlyEmptyArtifacts
      = (s.hasOnlyEmptyArtifacts && isEmptyArtifact 1024 e) := by
  obtain ⟨nm, k⟩ := e
  by_cases h1 : nm = "attachments" <;> by_cases h2 : nm = "orphaned.html" <;>
    rcases k with (_ | sz) | (_ | n) <;>
    simp_all [v2Step, isEmptyArtifact] <;>
    split <;> simp_all <;> omega

theorem v2Loop_hOEA (entries : List DirEntry) (s : V2State) :
    (v2Loop s entries).hasOnlyEmptyArtifacts
      = (s.hasOnlyEmptyArtifacts && entries.all (isEmptyArtifact 1024)) := by
  induction entries generalizing s with
  | nil => simp [v2Loop]
  | cons e rest ih =>
      simp only [v2Loop]
      cases hb : (v2Step s e).hasOnlyEmptyArtifacts with
      | false =>
          simp only [Bool.false_eq_true, if_false, hb]
          rw [v2Step_hOEA] at hb
          simp [List.all_cons, ← Bool.and_assoc, hb]
      | true =>
          simp only [if_true]
          rw [ih, hb]
          rw [v2Step_hOEA] at hb
          simp [List.all_cons, ← Bool.and_assoc, hb]

theorem v2Step_flag_mono (s : V2State) (e : DirEntry)
    (h : (s.hasAttachmentsDir || s.hasOrphanedHTML) = true) :
    ((v2Step s e).hasAttachmentsDir || (v2Step s e).hasOrphanedHTML) = true := by
  obtain ⟨nm, k⟩ := e
  by_cases h1 : nm = "attachments" <;> by_cases h2 : nm = "orphaned.html" <;>
    rcases k with (_ | sz) | (_ | n) <;>
    simp_all [v2Step] <;> split <;> simp_all

theorem v2Loop_flag (entries : List DirEntry) (s : V2State)
    (h : (s.hasAttachmentsDir || s.hasOrphanedHTML) = true) :
    ((v2Loop s entries).hasAttachmentsDir
      || (v2Loop s entries).hasOrphanedHTML) = true := by
  induction entries generalizing s with
  | nil => simpa [v2Loop] using h
  | cons e rest ih =>
      simp only [v2Loop]
      split
      · exact ih _ (v2Step_flag_mono s e h)
      · exact v2Step_flag_mono s e h

theorem v2Step_artifact (s : V2State) (e : DirEntry)
    (h : isEmptyArtifact 1024 e = true) :
    (v2Step s e).foundOtherContent = s.foundOtherContent
    ∧ ((v2Step s e).hasAttachmentsDir || (v2Step s e).hasOrphanedHTML) = true := by
  obtain ⟨nm, k⟩ := e
  by_cases h1 : nm = "attachments" <;> by_cases h2 : nm = "orphaned.html" <;>
    rcases k with (_ | sz) | (_ | n) <;>
    simp_all [v2Step, isEmptyArtifact] <;>
    split <;> simp_all <;> omega

theorem v2Loop_fOC_all (entries : List DirEntry) (s : V2State)
    (hs : s.hasOnlyEmptyArtifacts = true)
    (h : entries.all (isEmptyArtifact 1024) = true) :
    (v2Loop s entries).foundOtherContent = s.foundOtherContent := by
  induction entries generalizing s with
  | nil => simp [v2Loop]
  | cons e rest ih =>
      have he : isEmptyArtifact 1024 e = true := by
        simp only [List.all_cons, Bool.and_eq_true] at h; exact h.1
      have hrest : rest.all (isEmptyArtifact 1024) = true := by
        simp only [List.all_cons, Bool.and_eq_true] at h; exact h.2
      have hb : (v2Step s e).hasOnlyEmptyArtifacts = true := by
        rw [v2Step_hOEA, hs, he]; rfl
      simp only [v2Loop, hb, if_true]
      rw [ih _ hb hrest, (v2Step_artifact s e he).1]

/-- Characterization of the second-revision classifier: a listed
directory is classified empty exactly when every entry is a recognized
empty artifact (1 KiB threshold). -/
theorem isDirectoryEmptyV2_iff (entries : List DirEntry) :
    isDirectoryEmptyV2 entries = true
      ↔ entries.all (isEmptyArtifact 1024) = true := by
  cases entries with
  | nil => simp [isDirectoryEmptyV2]
  | cons e rest =>
      constructor
      · intro h
        by_contra hall
        have hOEA : (v2Loop ⟨true, false, false, false⟩ (e :: rest)).hasOnlyEmptyArtifacts = false := by
          rw [v2Loop_hOEA]
          simpa using Bool.eq_false_iff.mpr hall
        unfold isDirectoryEmptyV2 at h
        rw [if_neg (by simp)] at h
        cases hf : (v2Loop ⟨true, false, false, false⟩ (e :: rest)).foundOtherContent <;>
          simp [hf, hOEA] at h
      · intro h
        have he : isEmptyArtifact 1024 e = true := by
          simp only [List.all_cons, Bool.and_eq_true] at h; exact h.1
        have hOEA : (v2Loop ⟨true, false, false, false⟩ (e :: rest)).hasOnlyEmptyArtifacts = true := by
          rw [v2Loop_hOEA, h]; rfl
        have hfOC : (v2Loop ⟨true, false, false, false⟩ (e :: rest)).foundOtherContent = false :=
          v2Loop_fOC_all (e :: rest) ⟨true, false, false, false⟩ rfl h
        have hflag : ((v2Loop ⟨true, false, false, false⟩ (e :: rest)).hasAttachmentsDir
            || (v2Loop ⟨true, false, false, false⟩ (e :: rest)).hasOrphanedHTML) = true := by
          have hb : (v2Step ⟨true, false, false, false⟩ e).hasOnlyEmptyArtifacts = true := by
            rw [v2Step_hOEA, he]; rfl
          simp only [v2Loop, hb, if_true]
          exact v2Loop_flag rest _ (v2Step_artifact _ e he).2
        unfold isDirectoryEmptyV2
        rw [if_neg (by simp)]
        cases hA2 : (v2Loop ⟨true, false, false, false⟩ (e :: rest)).hasAttachmentsDir <;>
          cases hO2 : (v2Loop ⟨true, false, false, false⟩ (e :: rest)).hasOrphanedHTML <;>
          simp_all

theorem all_iff_claim_shape (p : DirEntry → Bool) (entries : List DirEntry) :
    entries.all p = true
      ↔ (entries = [] ∨ ((∀ e ∈ entries, p e = true) ∧ ∃ e ∈ entries, p e = true)) := by
  cases entries with
  | nil => simp
  | cons e rest =>
      simp only [List.all_eq_true, List.cons_ne_nil, false_or]
      constructor
      · intro h
        exact ⟨h, e, by simp, h e (by simp)⟩
      · intro h
        exact h.1

/-- C2: both revisions of `isDirectoryEmpty` return empty exactly when the
directory has zero entries, or every entry is a recognized empty artifact
(empty `attachments` directory, or plain-file `orphaned.html` of size at
most the revision's threshold: 10240 bytes in the first revision, 1024 in
the second) and at least one such artifact was seen; every other listable
directory is classified non-empty. -/
theorem claim2_classifier_empty_iff (entries : List DirEntry) :
    (isDirectoryEmptyV1 entries = true
      ↔ (entries = [] ∨ ((∀ e ∈ entries, isEmptyArtifact 10240 e = true)
            ∧ ∃ e ∈ entries, isEmptyArtifact 10240 e = true)))
    ∧ (isDirectoryEmptyV2 entries = true
      ↔ (entries = [] ∨ ((∀ e ∈ entries, isEmptyArtifact 1024 e = true)
            ∧ ∃ e ∈ entries, isEmptyArtifact 1024 e = true))) :=
  ⟨(isDirectoryEmptyV1_iff entries).trans (all_iff_claim_shape _ entries),
   (isDirectoryEmptyV2_iff entries).trans (all_iff_claim_shape _ entries)⟩

/-- Witness for C2 at concrete listings: a lone empty attachments
directory is empty under the first revision, and a lone small
orphaned.html under the second. -/
theorem claim2_witness :
    isDirectoryEmptyV1 [⟨"attachments", .dirEntry (some 0)⟩] = true
    ∧ isDirectoryEmptyV2 [⟨"orphaned.html", .fileEntry (some 100)⟩] = true :=
  ⟨(claim2_classifier_empty_iff [⟨"attachments", .dirEntry (some 0)⟩]).1.mpr
      (Or.inr ⟨by decide, by decide⟩),
   (claim2_classifier_empty_iff [⟨"orphaned.html", .fileEntry (some 100)⟩]).2.mpr
      (Or.inr ⟨by decide, by decide⟩)⟩

theorem not_artifact_of_bad (threshold : Nat) (e : DirEntry)
    (h : (e.name ≠ "attachments" ∧ e.name ≠ "orphaned.html")
       ∨ (e.name = "attachments" ∧ ∃ sz, e.kind = .fileEntry sz)
       ∨ (e.name = "orphaned.html" ∧ ∃ c, e.kind = .dirEntry c)) :
    isEmptyArtifact threshold e = false := by
  obtain ⟨nm, k⟩ := e
  rcases h with ⟨h1, h2⟩ | ⟨h1, sz, h2⟩ | ⟨h1, c, h2⟩ <;>
    simp_all [isEmptyArtifact]

/-- C5: any listable directory containing an entry whose name is neither
`attachments` nor `orphaned.html`, or containing `attachments` as a
non-directory, or `orphaned.html` as a directory, is classified non-empty
by both revisions; unrecognized content never yields empty. -/
theorem claim5_strict_nonempty (entries : List DirEntry)
    (h : (∃ e ∈ entries, e.name ≠ "attachments" ∧ e.name ≠ "orphaned.html")
       ∨ (∃ e ∈ entries, e.name = "attachments" ∧ ∃ sz, e.kind = .fileEntry sz)
       ∨ (∃ e ∈ entries, e.name = "orphaned.html" ∧ ∃ c, e.kind = .dirEntry c)) :
    isDirectoryEmptyV1 entries = false ∧ isDirectoryEmptyV2 entries = false := by
  have hbad : ∃ e ∈ entries,
      (e.name ≠ "attachments" ∧ e.name ≠ "orphaned.html")
      ∨ (e.name = "attachments" ∧ ∃ sz, e.kind = .fileEntry sz)
      ∨ (e.name = "orphaned.html" ∧ ∃ c, e.kind = .dirEntry c) := by
    rcases h with ⟨e, he, hp⟩ | ⟨e, he, hp⟩ | ⟨e, he, hp⟩
    · exact ⟨e, he, Or.inl hp⟩
    · exact ⟨e, he, Or.inr (Or.inl hp)⟩
    · exact ⟨e, he, Or.inr (Or.inr hp)⟩
  obtain ⟨e, he, hp⟩ := hbad
  constructor
  · rw [Bool.eq_false_iff]
    intro hemp
    have := (isDirectoryEmptyV1_iff entries).mp hemp
    have hart := List.all_eq_true.mp this e he
    rw [not_artifact_of_bad 10240 e hp] at hart
    exact Bool.false_ne_true hart
  · rw [Bool.eq_false_iff]
    intro hemp
    have := (isDirectoryEmptyV2_iff entries).mp hemp
    have hart := List.all_eq_true.mp this e he
    rw [not_artifact_of_bad 1024 e hp] at hart
    exact Bool.false_ne_true hart

/-- Witness for C5 at a concrete directory listing: a single real
conversation file makes both classifier revisions return non-empty. -/
theorem claim5_witness :
    isDirectoryEmptyV1 [⟨"conversation1.html", .fileEntry (some 5)⟩] = false
    ∧ isDirectoryEmptyV2 [⟨"conversation1.html", .fileEntry (some 5)⟩] = false :=
  claim5_strict_nonempty _
    (Or.inl ⟨⟨"conversation1.html", .fileEntry (some 5)⟩, by simp, by decide, by decide⟩)

/-! ## Filesystem model

The local filesystem is a finite tree of named files and directories.
Paths are component lists (filepath.Join never appears materially, the
per-date path is `root ++ [YYYY, MM, DD]`).  `mkdirAll`, `lookupPath`,
`putPath` and `removeAllPath` embed os.MkdirAll, path lookup, the export
tool writing its output tree, and os.RemoveAll. -/

inductive FSTree where
  | file (size : Nat)
  | dir (children : List (String × FSTree))

def getChild (cs : List (String × FSTree)) (n : String) : Option FSTree :=
  match cs with
  | [] => none
  | (m, t) :: rest => if m = n then some t else getChild rest n

def setChild (cs : List (String × FSTree)) (n : String) (t : FSTree) :
    List (String × FSTree) :=
  match cs with
  | [] => [(n, t)]
  | (m, u) :: rest => if m = n then (m, t) :: rest else (m, u) :: setChild rest n t

def removeChild (cs : List (String × FSTree)) (n : String) :
    List (String × FSTree) :=
  cs.filter (fun p => decide (p.1 ≠ n))

def lookupPath : FSTree → List String → Option FSTree
  | t, [] => some t
  | .file _, _ :: _ => none
  | .dir cs, n :: rest =>
      match getChild cs n with
      | none => none
      | some c => lookupPath c rest

/-- Embedding of os.MkdirAll: create any missing directories along the
path; fails (returns `none`) when an existing regular file blocks the
path. -/
def mkdirAll : FSTree → List String → Option FSTree
  | .file _, [] => none
  | .dir cs, [] => some (.dir cs)
  | .file _, _ :: _ => none
  | .dir cs, n :: rest =>
      match getChild cs n with
      | some c => (mkdirAll c rest).map (fun c2 => FSTree.dir (setChild cs n c2))
      | none => (mkdirAll (.dir []) rest).map (fun c2 => FSTree.dir (setChild cs n c2))

/-- Overwrite the subtree at a path (used for the export tool populating
the just-created per-date directory). -/
def putPath : FSTree → List String → FSTree → FSTree
  | _, [], t => t
  | .file sz, _ :: _, _ => .file sz
  | .dir cs, n :: rest, t =>
      .dir (setChild cs n (putPath ((getChild cs n).getD (.dir [])) rest t))

/-- Embedding of os.RemoveAll on a nonempty path: remove the named entry
and its whole subtree; removing a nonexistent path is a no-op. -/
def removeAllPath : FSTree → List String → FSTree
  | t, [] => t
  | .file sz, _ :: _ => .file sz
  | .dir cs, n :: rest =>
      match rest with
      | [] => .dir (removeChild cs n)
      | _ :: _ =>
          match getChild cs n with
          | none => .dir cs
          | some c => .dir (setChild cs n (removeAllPath c rest))

theorem getChild_setChild (cs : List (String × FSTree)) (n : String) (t : FSTree) :
    getChild (setChild cs n t) n = some t := by
  induction cs with
  | nil => simp [setChild, getChild]
  | cons p rest ih =>
      obtain ⟨m, u⟩ := p
      by_cases h : m = n <;> simp [setChild, getChild, h, ih]

theorem getChild_removeChild (cs : List (String × FSTree)) (n : String) :
    getChild (removeChild cs n) n = none := by
  induction cs with
  | nil => simp [removeChild, getChild]
  | cons p rest ih =>
      obtain ⟨m, u⟩ := p
      by_cases h : m = n <;> simp [removeChild, getChild, h] at ih ⊢ <;>
        simpa [removeChild] using ih

/-- After removing a nonempty path, looking it up yields nothing. -/
theorem lookupPath_removeAllPath (fs : FSTree) (p : List String) (h : p ≠ []) :
    lookupPath (removeAllPath fs p) p = none := by
  induction p generalizing fs with
  | nil => exact absurd rfl h
  | cons n rest ih =>
      cases fs with
      | file sz => simp [removeAllPath, lookupPath]
      | dir cs =>
          cases rest with
          | nil => simp [removeAllPath, lookupPath, getChild_removeChild]
          | cons r rs =>
              cases hg : getChild cs n with
              | none => simp [removeAllPath, hg, lookupPath]
              | some c =>
                  simp only [removeAllPath, hg, lookupPath, getChild_setChild]
                  exact ih c (by simp)

/-- After a successful mkdirAll along a path, writing a subtree there and
looking the path up returns exactly that subtree. -/
theorem lookupPath_putPath (p : List String) (fs fs2 : FSTree) (t : FSTree)
    (h : mkdirAll fs p = some fs2) :
    lookupPath (putPath fs2 p t) p = some t := by
  induction p generalizing fs fs2 with
  | nil => simp [putPath, lookupPath]
  | cons n rest ih =>
      cases fs with
      | file sz => simp [mkdirAll] at h
      | dir cs =>
          cases hg : getChild cs n with
          | some c =>
              cases hm : mkdirAll c rest with
              | none => simp [mkdirAll, hg, hm] at h
              | some c2 =>
                  simp only [mkdirAll, hg, hm, Option.map_some',
                    Option.some_inj] at h
                  subst h
                  simp only [putPath, getChild_setChild, Option.getD_some,
                    lookupPath]
                  exact ih c c2 hm
          | none =>
              cases hm : mkdirAll (.dir []) rest with
              | none => simp [mkdirAll, hg, hm] at h
              | some c2 =>
                  simp only [mkdirAll, hg, hm, Option.map_some',
                    Option.some_inj] at h
                  subst h
                  simp only [putPath, getChild_setChild, Option.getD_some,
                    lookupPath]
                  exact ih (.dir []) c2 hm

/-! ## Per-date processing and the run controller

External commands are oracles: an `ExportSpec` gives the outcome of the
imessage-exporter invocation for one date (`result = none` means success,
in which case `output` is the directory tree it produced), `syncOk` the
outcome of the single rsync invocation, and `cleanupRemoveOk` the outcome
of the os.RemoveAll performed by `cleanup`. -/

inductive ExportErr where
  | fullDiskAccess
  | invalidConfig
  | commandFailed
  deriving DecidableEq

inductive DateErr where
  | mkdirFailed
  | exportFailed (e : ExportErr)
  | classifyFailed
  deriving DecidableEq

inductive DateOutcome where
  | removedEmpty
  | retained
  deriving DecidableEq

structure ExportSpec where
  result : Option ExportErr
  output : List (String × FSTree)

/-- One date to process: its ISO string (Format "2006-01-02") and path
components (Format "2006", "01", "02"), plus the export oracle and the
outcome of the os.RemoveAll that processDateLocally performs on an
empty-classified directory (that removal is best-effort in the code:
a failure is logged as a warning only). -/
structure DateJob where
  iso : String
  year : String
  month : String
  day : String
  exportSpec : ExportSpec
  removeOk : Bool

/-- View of one filesystem child as an os.ReadDir entry (all sub-reads
succeed in the tree model). -/
def entryOf : String × FSTree → DirEntry
  | (n, .file sz) => ⟨n, .fileEntry (some sz)⟩
  | (n, .dir cs) => ⟨n, .dirEntry (some cs.length)⟩

/-- Embedding of processDateLocally (archiver.go lines 215-252):
create root/YYYY/MM/DD, run the export, classify the result with
isDirectoryEmpty, and on an empty classification attempt to remove the
directory — best-effort, per lines 244-246: when the os.RemoveAll fails
(`job.removeOk = false`) the failure is only logged and the directory
stays, and the call still returns nil.  A non-empty directory is kept
untouched. -/
def processDateLocallyFS (root : List String) (job : DateJob) (fs : FSTree) :
    FSTree × Except DateErr DateOutcome :=
  let path := root ++ [job.year, job.month, job.day]
  match mkdirAll fs path with
  | none => (fs, .error .mkdirFailed)
  | some fs1 =>
      match job.exportSpec.result with
      | some e => (fs1, .error (.exportFailed e))
      | none =>
          let fs2 := putPath fs1 path (.dir job.exportSpec.output)
          match lookupPath fs2 path with
          | some (.dir cs) =>
              if isDirectoryEmptyV1 (cs.map entryOf) then
                (if job.removeOk then removeAllPath fs2 path else fs2,
                  .ok .removedEmpty)
              else (fs2, .ok .retained)
          | _ => (fs2, .error .classifyFailed)

structure LoopResult where
  fs : FSTree
  hasDataToSync : Bool
  attempted : Nat
  outcomes : List DateOutcome
  failure : Option (String × DateErr)

/-- The date loop of Run (archiver.go lines 76-83): process dates in
order, abort on the first failure, and set hasDataToSync after every
successful date. -/
def runLoop (root : List String) : List DateJob → Bool → FSTree → LoopResult
  | [], hasData, fs => ⟨fs, hasData, 0, [], none⟩
  | job :: rest, hasData, fs =>
      match processDateLocallyFS root job fs with
      | (fs2, .error e) => ⟨fs2, hasData, 1, [], some (job.iso, e)⟩
      | (fs2, .ok o) =>
          let r := runLoop root rest true fs2
          ⟨r.fs, r.hasDataToSync, r.attempted + 1, o :: r.outcomes, r.failure⟩

inductive RunErr where
  | rootMkdirFailed
  | dateFailed (date : String) (e : DateErr)
  | syncFailed
  deriving DecidableEq

structure RunResult where
  err : Option RunErr
  fs : FSTree
  attempted : Nat
  outcomes : List DateOutcome
  syncCount : Nat
  cleanupCount : Nat

/-- The cleanup method (archiver.go lines 414-420): best-effort recursive
removal of the batch root; a failure is logged only. -/
def cleanupFS (root : List String) (removeOk : Bool) (fs : FSTree) : FSTree :=
  if removeOk then removeAllPath fs root else fs

/-- Embedding of Run (archiver.go lines 29-95) after the missing-date
list has been computed: early return on an empty list (before the batch
root or the deferred cleanup exist), then root creation, the date loop,
the single conditional batch sync, and the deferred cleanup on every
later exit path.  `syncCount` and `cleanupCount` count invocations of
batchSyncToRemote and cleanup. -/
def run (root : List String) (jobs : List DateJob) (syncOk : Bool)
    (cleanupRemoveOk : Bool) (fs0 : FSTree) : RunResult :=
  if jobs.isEmpty then ⟨none, fs0, 0, [], 0, 0⟩
  else
    match mkdirAll fs0 root with
    | none => ⟨some .rootMkdirFailed, fs0, 0, [], 0, 0⟩
    | some fs1 =>
        let r := runLoop root jobs false fs1
        match r.failure with
        | some (d, e) =>
            ⟨some (.dateFailed d e), cleanupFS root cleanupRemoveOk r.fs,
              r.attempted, r.outcomes, 0, 1⟩
        | none =>
            if r.hasDataToSync then
              if syncOk then
                ⟨none, cleanupFS root cleanupRemoveOk r.fs,
                  r.attempted, r.outcomes, 1, 1⟩
              else
                ⟨some .syncFailed, cleanupFS root cleanupRemoveOk r.fs,
                  r.attempted, r.outcomes, 1, 1⟩
            else
              ⟨none, cleanupFS root cleanupRemoveOk r.fs,
                r.attempted, r.outcomes, 0, 1⟩

/-- The signal-handling goroutine body (archiver.go lines 68-73): on an
interrupt it invokes the same cleanup closure and exits with status 1. -/
def interruptHandler (root : List String) (removeOk : Bool) (fs : FSTree) :
    FSTree × Nat :=
  (cleanupFS root removeOk fs, 1)

theorem runLoop_hasData (root : List String) (jobs : List DateJob)
    (h : Bool) (fs : FSTree)
    (hf : (runLoop root jobs h fs).failure = none) :
    (runLoop root jobs h fs).hasDataToSync = (h || !jobs.isEmpty) := by
  induction jobs generalizing h fs with
  | nil => simp [runLoop]
  | cons job rest ih =>
      simp only [runLoop] at hf ⊢
      cases hp : processDateLocallyFS root job fs with
      | mk fs2 r =>
          cases r with
          | error e => rw [hp] at hf; simp at hf
          | ok o =>
              rw [hp] at hf
              dsimp only at hf ⊢
              rw [ih true fs2 hf]
              simp

theorem runLoop_append_failure (root : List String) (l1 l2 : List DateJob)
    (h : Bool) (fs : FSTree)
    (hf : (runLoop root l1 h fs).failure.isSome = true) :
    runLoop root (l1 ++ l2) h fs = runLoop root l1 h fs := by
  induction l1 generalizing h fs with
  | nil => simp [runLoop] at hf
  | cons job rest ih =>
      simp only [List.cons_append, runLoop] at hf ⊢
      cases hp : processDateLocallyFS root job fs with
      | mk fs2 r =>
          cases r with
          | error e => rfl
          | ok o =>
              rw [hp] at hf
              dsimp only at hf ⊢
              rw [List.append_eq, ih true fs2 hf]

/-! ## Concrete jobs used by witnesses and counterexamples -/

/-- A date whose export succeeds but produces nothing (classified empty);
the empty-directory removal succeeds. -/
def jobEmptyExport : DateJob := ⟨"2024-01-01", "2024", "01", "01", ⟨none, []⟩, true⟩

/-- A date whose export invocation fails. -/
def jobFailingExport : DateJob :=
  ⟨"2024-01-02", "2024", "01", "02", ⟨some .commandFailed, []⟩, true⟩

/-- A date whose export produces a real conversation file (retained). -/
def jobRealExport : DateJob :=
  ⟨"2024-01-03", "2024", "01", "03", ⟨none, [("conversation1.html", .file 5)]⟩, true⟩

/-- A date whose export succeeds with an empty result but whose
empty-directory os.RemoveAll fails. -/
def jobEmptyNoRemove : DateJob :=
  ⟨"2024-01-04", "2024", "01", "04", ⟨none, []⟩, false⟩

/-- C1 counterexample: in a run whose single missing date is processed,
classified empty and discarded, the code still invokes batchSyncToRemote
once (hasDataToSync is set after every successful date, retained or not),
contradicting the claim that such a run proceeds to cleanup without
invoking BatchSyncer. -/
theorem claim1_counterexample :
    (run ["tmp"] [jobEmptyExport] true true (.dir [])).outcomes
        = [.removedEmpty]
    ∧ (run ["tmp"] [jobEmptyExport] true true (.dir [])).err = none
    ∧ (run ["tmp"] [jobEmptyExport] true true (.dir [])).syncCount = 1 :=
  ⟨rfl, rfl, rfl⟩

/-- C1 amended: BatchSyncer is invoked at most once per run, and it is
invoked (exactly once) precisely when the missing-date list is nonempty,
the batch root was created, and every date was processed without error —
regardless of whether any processed date was retained; only an aborting
failure (or an empty date list) reaches cleanup without a sync. -/
theorem claim1_amended_sync (root : List String) (jobs : List DateJob)
    (syncOk cleanupRemoveOk : Bool) (fs0 : FSTree) :
    (run root jobs syncOk cleanupRemoveOk fs0).syncCount ≤ 1
    ∧ ((run root jobs syncOk cleanupRemoveOk fs0).syncCount = 1
        ↔ jobs ≠ [] ∧ ∃ fs1, mkdirAll fs0 root = some fs1
            ∧ (runLoop root jobs false fs1).failure = none) := by
  by_cases hj : jobs.isEmpty = true
  · have : jobs = [] := by simpa [List.isEmpty_iff] using hj
    subst this
    constructor
    · simp [run]
    · simp [run]
  · have hj2 : jobs.isEmpty = false := by simpa using hj
    have hjne : jobs ≠ [] := by simpa [List.isEmpty_iff] using hj
    cases hmk : mkdirAll fs0 root with
    | none =>
        constructor
        · simp [run, hj2, hmk]
        · simp [run, hj2, hmk]
    | some fs1 =>
        rcases hf : (runLoop root jobs false fs1).failure with _ | ⟨d, e⟩
        · have hd : (runLoop root jobs false fs1).hasDataToSync = true := by
            rw [runLoop_hasData root jobs false fs1 hf, hj2]
            simp
          constructor
          · cases syncOk <;> simp [run, hj2, hmk, hf, hd]
          · cases syncOk <;> simp [run, hj2, hmk, hf, hd, hjne]
        · constructor
          · simp [run, hj2, hmk, hf]
          · simp [run, hj2, hmk, hf]

/-- C6: if processing fails at some date within a prefix of the
missing-date list, Run returns an error wrapping that date's ISO string,
the dates after the failing one are never attempted (appending more dates
changes nothing), and BatchSyncer is not invoked. -/
theorem claim6_failure_aborts (root : List String) (jobs extra : List DateJob)
    (syncOk cleanupRemoveOk : Bool) (fs0 fs1 : FSTree) (d : String) (e : DateErr)
    (hmk : mkdirAll fs0 root = some fs1)
    (hf : (runLoop root jobs false fs1).failure = some (d, e)) :
    (run root (jobs ++ extra) syncOk cleanupRemoveOk fs0).err
        = some (.dateFailed d e)
    ∧ (run root (jobs ++ extra) syncOk cleanupRemoveOk fs0).attempted
        = (runLoop root jobs false fs1).attempted
    ∧ (run root (jobs ++ extra) syncOk cleanupRemoveOk fs0).syncCount = 0 := by
  have hjne : jobs ≠ [] := by
    intro hnil
    rw [hnil] at hf
    simp [runLoop] at hf
  have hem : (jobs ++ extra).isEmpty = false := by
    simp [List.isEmpty_iff, hjne]
  have happ : runLoop root (jobs ++ extra) false fs1 = runLoop root jobs false fs1 :=
    runLoop_append_failure root jobs extra false fs1 (by simp [hf])
  refine ⟨?_, ?_, ?_⟩ <;> simp [run, hem, hmk, happ, hf]

/-- Witness for C6: a concrete two-date run where the first date's export
fails; the error names that date, the second date is never attempted, and
no sync happens. -/
theorem claim6_witness :
    (run ["tmp"] ([jobFailingExport] ++ [jobEmptyExport]) true true (.dir [])).err
        = some (.dateFailed "2024-01-02" (.exportFailed .commandFailed))
    ∧ (run ["tmp"] ([jobFailingExport] ++ [jobEmptyExport]) true true (.dir [])).attempted
        = (runLoop ["tmp"] [jobFailingExport] false (.dir [("tmp", .dir [])])).attempted
    ∧ (run ["tmp"] ([jobFailingExport] ++ [jobEmptyExport]) true true (.dir [])).syncCount = 0 :=
  claim6_failure_aborts ["tmp"] [jobFailingExport] [jobEmptyExport] true true
    (.dir []) (.dir [("tmp", .dir [])]) "2024-01-02"
    (.exportFailed .commandFailed) rfl rfl

/-- C7 counterexample: a date whose export succeeds with an empty result
but whose empty-directory os.RemoveAll fails (archiver.go lines 244-246
log a warning only): processDateLocally still returns nil, yet the
per-date directory tmp/2024/01/04 still exists afterwards, refuting the
claim that it no longer exists whenever the classification was empty. -/
theorem claim7_counterexample :
    (processDateLocallyFS ["tmp"] jobEmptyNoRemove (.dir [])).2
        = .ok .removedEmpty
    ∧ lookupPath (processDateLocallyFS ["tmp"] jobEmptyNoRemove (.dir [])).1
        ["tmp", "2024", "01", "04"] = some (.dir []) :=
  ⟨rfl, rfl⟩

/-- C7 amended: for a date whose directory creation and export succeed,
if the export directory is classified empty then processDateLocally
returns nil and attempts to remove root/YYYY/MM/DD; when that removal
succeeds the directory no longer exists, while a removal failure is
logged as a warning only and leaves the filesystem exactly in the
post-export state; if classified non-empty, the directory holds exactly
the export output and the filesystem is exactly the post-export state. -/
theorem claim7_frame_best_effort (root : List String) (job : DateJob)
    (fs fs1 : FSTree)
    (hmk : mkdirAll fs (root ++ [job.year, job.month, job.day]) = some fs1)
    (hexp : job.exportSpec.result = none) :
    (isDirectoryEmptyV1 (job.exportSpec.output.map entryOf) = true →
        (processDateLocallyFS root job fs).2 = .ok .removedEmpty
        ∧ (job.removeOk = true →
            lookupPath (processDateLocallyFS root job fs).1
              (root ++ [job.year, job.month, job.day]) = none)
        ∧ (job.removeOk = false →
            (processDateLocallyFS root job fs).1
              = putPath fs1 (root ++ [job.year, job.month, job.day])
                  (.dir job.exportSpec.output)))
    ∧ (isDirectoryEmptyV1 (job.exportSpec.output.map entryOf) = false →
        (processDateLocallyFS root job fs).2 = .ok .retained
        ∧ (processDateLocallyFS root job fs).1
            = putPath fs1 (root ++ [job.year, job.month, job.day])
                (.dir job.exportSpec.output)
        ∧ lookupPath (processDateLocallyFS root job fs).1
            (root ++ [job.year, job.month, job.day])
            = some (.dir job.exportSpec.output)) := by
  have hlook := lookupPath_putPath (root ++ [job.year, job.month, job.day]) fs fs1
      (.dir job.exportSpec.output) hmk
  constructor
  · intro hcls
    refine ⟨?_, ?_, ?_⟩
    · simp only [processDateLocallyFS, hmk, hexp, hlook, hcls, if_true]
    · intro hrm
      simp only [processDateLocallyFS, hmk, hexp, hlook, hcls, hrm, if_true]
      exact lookupPath_removeAllPath _ _ (by simp)
    · intro hrm
      simp only [processDateLocallyFS, hmk, hexp, hlook, hcls, hrm, if_true,
        Bool.false_eq_true, if_false]
  · intro hcls
    refine ⟨?_, ?_, ?_⟩ <;>
      simp only [processDateLocallyFS, hmk, hexp, hlook, hcls,
        Bool.false_eq_true, if_false]

/-- Witness for the amended C7 at concrete inputs: a retained date keeps
exactly its export output in place, and an empty date's directory is gone
afterwards when the removal succeeds. -/
theorem claim7_witness :
    ((processDateLocallyFS ["tmp"] jobRealExport (.dir [])).2 = .ok .retained
      ∧ lookupPath (processDateLocallyFS ["tmp"] jobRealExport (.dir [])).1
          ["tmp", "2024", "01", "03"]
          = some (.dir [("conversation1.html", .file 5)]))
    ∧ ((processDateLocallyFS ["tmp"] jobEmptyExport (.dir [])).2 = .ok .removedEmpty
      ∧ lookupPath (processDateLocallyFS ["tmp"] jobEmptyExport (.dir [])).1
          ["tmp", "2024", "01", "01"] = none) := by
  constructor
  · have h := claim7_frame_best_effort ["tmp"] jobRealExport (.dir [])
      (.dir [("tmp", .dir [("2024", .dir [("01", .dir [("03", .dir [])])])])])
      rfl rfl
    have h2 := h.2 (by decide)
    exact ⟨h2.1, h2.2.2⟩
  · have h := claim7_frame_best_effort ["tmp"] jobEmptyExport (.dir [])
      (.dir [("tmp", .dir [("2024", .dir [("01", .dir [("01", .dir [])])])])])
      rfl rfl
    have h1 := h.1 (by decide)
    exact ⟨h1.1, h1.2.1 rfl⟩

/-- C8: once the batch root exists, every terminating path of Run invokes
cleanup exactly once; when the removal succeeds the batch root is gone;
a removal failure never changes Run's error result; and the interrupt
handler likewise runs cleanup and exits with a nonzero status. -/
theorem claim8_cleanup (root : List String) (jobs : List DateJob)
    (syncOk : Bool) (fs0 fs1 : FSTree)
    (hroot : root ≠ []) (hjobs : jobs ≠ [])
    (hmk : mkdirAll fs0 root = some fs1) :
    (∀ cOk, (run root jobs syncOk cOk fs0).cleanupCount = 1)
    ∧ lookupPath (run root jobs syncOk true fs0).fs root = none
    ∧ (run root jobs syncOk true fs0).err = (run root jobs syncOk false fs0).err
    ∧ ∀ fs, (interruptHandler root true fs).2 = 1
        ∧ lookupPath (interruptHandler root true fs).1 root = none := by
  have hem : jobs.isEmpty = false := by simp [List.isEmpty_iff, hjobs]
  refine ⟨?_, ?_, ?_, ?_⟩
  · intro cOk
    rcases hf : (runLoop root jobs false fs1).failure with _ | ⟨d, e⟩ <;>
      cases hd : (runLoop root jobs false fs1).hasDataToSync <;>
      cases syncOk <;> simp [run, hem, hmk, hf, hd]
  · rcases hf : (runLoop root jobs false fs1).failure with _ | ⟨d, e⟩ <;>
      cases hd : (runLoop root jobs false fs1).hasDataToSync <;>
      cases syncOk <;>
      simpa [run, hem, hmk, hf, hd, cleanupFS] using
        lookupPath_removeAllPath (runLoop root jobs false fs1).fs root hroot
  · rcases hf : (runLoop root jobs false fs1).failure with _ | ⟨d, e⟩ <;>
      cases hd : (runLoop root jobs false fs1).hasDataToSync <;>
      cases syncOk <;> simp [run, hem, hmk, hf, hd]
  · intro fs
    exact ⟨rfl, by
      simpa [interruptHandler, cleanupFS] using
        lookupPath_removeAllPath fs root hroot⟩

/-- Witness for C8 at a concrete run: cleanup runs once even when its
removal fails, the batch root is gone when removal succeeds, and the
recorded error is the same either way. -/
theorem claim8_witness :
    (run ["tmp"] [jobRealExport] true false (.dir [])).cleanupCount = 1
    ∧ lookupPath (run ["tmp"] [jobRealExport] true true (.dir [])).fs ["tmp"] = none
    ∧ (run ["tmp"] [jobRealExport] true true (.dir [])).err
        = (run ["tmp"] [jobRealExport] true false (.dir [])).err := by
  have h := claim8_cleanup ["tmp"] [jobRealExport] true (.dir [])
    (.dir [("tmp", .dir [])]) (by decide) (by simp) rfl
  exact ⟨h.1 false, h.2.1, h.2.2.1⟩

/-- Witness for the amended C1 at a concrete run whose only date is
classified empty: the sync condition of the amended claim holds there. -/
theorem claim1_amended_witness :
    (run ["tmp"] [jobEmptyExport] true true (.dir [])).syncCount ≤ 1
    ∧ ((run ["tmp"] [jobEmptyExport] true true (.dir [])).syncCount = 1
        ↔ [jobEmptyExport] ≠ [] ∧ ∃ fs1, mkdirAll (.dir []) ["tmp"] = some fs1
            ∧ (runLoop ["tmp"] [jobEmptyExport] false fs1).failure = none) :=
  claim1_amended_sync ["tmp"] [jobEmptyExport] true true (.dir [])

/-! ## Gap analysis

Calendar days are modelled as integers (time.Time truncated to day
granularity; AddDate(0, 0, -i) is subtraction), and Format "2006-01-02"
is an arbitrary formatting function passed as a parameter.  The remote
index is the list of ISO keys built by getRemoteArchiveStructure, looked
up with membership (a Go map[string]bool lookup of a key stored as true). -/

/-- Fallback loop of findMissingArchives (archiver.go lines 108-111):
every day of the window counts as missing.  `i` is the loop counter,
the second argument the number of remaining iterations. -/
def windowLoop (today : Int) : Nat → Nat → List Int
  | _, 0 => []
  | i, c + 1 => (today - (i : Int)) :: windowLoop today (i + 1) c

/-- Main loop of findMissingArchives (archiver.go lines 116-126): keep a
day when its ISO string is not a key of the remote index. -/
def missingLoop (fmt : Int → String) (today : Int) (keys : List String) :
    Nat → Nat → List Int
  | _, 0 => []
  | i, c + 1 =>
      if keys.contains (fmt (today - (i : Int))) then
        missingLoop fmt today keys (i + 1) c
      else (today - (i : Int)) :: missingLoop fmt today keys (i + 1) c

/-- Embedding of findMissingArchives (archiver.go lines 97-129).  The Go
loop `for i := 1; i <= daysToCheck; i++` performs `max 0 daysToCheck`
iterations, which is `daysToCheck.toNat`.  Both paths return a nil error,
modelled by the always-`none` second component. -/
def findMissingArchives (fmt : Int → String) (today : Int) (daysToCheck : Int)
    (probe : Except Unit (List String)) : List Int × Option Unit :=
  match probe with
  | .error _ => (windowLoop today 1 daysToCheck.toNat, none)
  | .ok keys => (missingLoop fmt today keys 1 daysToCheck.toNat, none)

theorem map_shift_succ (today : Int) (i c : Nat) :
    (List.range c).map (fun j : Nat => today - (((i + 1 : Nat) : Int) + (j : Int)))
      = ((List.range c).map Nat.succ).map (fun j : Nat => today - ((i : Int) + (j : Int))) := by
  rw [List.map_map]
  apply List.map_congr_left
  intro j _
  simp only [Function.comp_apply]
  push_cast
  ring

theorem windowLoop_eq (today : Int) (i c : Nat) :
    windowLoop today i c
      = (List.range c).map (fun j : Nat => today - ((i : Int) + (j : Int))) := by
  induction c generalizing i with
  | zero => simp [windowLoop]
  | succ c ih =>
      rw [windowLoop, ih (i + 1), List.range_succ_eq_map, List.map_cons,
        ← map_shift_succ]
      simp

theorem missingLoop_eq (fmt : Int → String) (today : Int) (keys : List String)
    (i c : Nat) :
    missingLoop fmt today keys i c
      = ((List.range c).map (fun j : Nat => today - ((i : Int) + (j : Int)))).filter
          (fun d => !keys.contains (fmt d)) := by
  induction c generalizing i with
  | zero => simp [missingLoop]
  | succ c ih =>
      rw [missingLoop, ih (i + 1), List.range_succ_eq_map, List.map_cons,
        ← map_shift_succ, List.filter_cons]
      cases hc : keys.contains (fmt (today - (i : Int))) with
      | false =>
          have hm : fmt (today - (i : Int)) ∉ keys := by simpa using hc
          simp [hc, hm]
      | true =>
          have hm : fmt (today - (i : Int)) ∈ keys := by simpa using hc
          simp [hc, hm]

/-- C3: with a positive window and a successfully retrieved remote index,
findMissingArchives returns (with a nil error) exactly the window days
today-1 .. today-daysToCheck whose ISO strings are not index keys, most
recent first, hence at most daysToCheck dates. -/
theorem claim3_gap_filter (fmt : Int → String) (today : Int)
    (keys : List String) (daysToCheck : Int) (hpos : 0 < daysToCheck) :
    (findMissingArchives fmt today daysToCheck (.ok keys)).1
      = ((List.range daysToCheck.toNat).map (fun j : Nat => today - ((j : Int) + 1))).filter
          (fun d => !keys.contains (fmt d))
    ∧ (findMissingArchives fmt today daysToCheck (.ok keys)).2 = none
    ∧ (findMissingArchives fmt today daysToCheck (.ok keys)).1.length
        ≤ daysToCheck.toNat := by
  have hmain : (findMissingArchives fmt today daysToCheck (.ok keys)).1
      = ((List.range daysToCheck.toNat).map (fun j : Nat => today - ((j : Int) + 1))).filter
          (fun d => !keys.contains (fmt d)) := by
    show missingLoop fmt today keys 1 daysToCheck.toNat = _
    rw [missingLoop_eq]
    congr 1
    apply List.map_congr_left
    intro j _
    push_cast
    ring
  refine ⟨hmain, rfl, ?_⟩
  rw [hmain]
  calc (((List.range daysToCheck.toNat).map (fun j : Nat => today - ((j : Int) + 1))).filter
          (fun d => !keys.contains (fmt d))).length
      ≤ ((List.range daysToCheck.toNat).map (fun j : Nat => today - ((j : Int) + 1))).length :=
        List.length_filter_le _ _
    _ = daysToCheck.toNat := by simp

/-- C4: when the remote probe fails, findMissingArchives swallows the
error (nil error out) and returns the full window: exactly daysToCheck
dates, today-1 first down to today-daysToCheck. -/
theorem claim4_fallback (fmt : Int → String) (today : Int) (daysToCheck : Int)
    (hpos : 0 < daysToCheck) :
    (findMissingArchives fmt today daysToCheck (.error ())).2 = none
    ∧ (findMissingArchives fmt today daysToCheck (.error ())).1
        = (List.range daysToCheck.toNat).map (fun j : Nat => today - ((j : Int) + 1))
    ∧ ((findMissingArchives fmt today daysToCheck (.error ())).1.length : Int)
        = daysToCheck := by
  have hmain : (findMissingArchives fmt today daysToCheck (.error ())).1
      = (List.range daysToCheck.toNat).map (fun j : Nat => today - ((j : Int) + 1)) := by
    show windowLoop today 1 daysToCheck.toNat = _
    rw [windowLoop_eq]
    apply List.map_congr_left
    intro j _
    push_cast
    ring
  refine ⟨rfl, hmain, ?_⟩
  rw [hmain]
  simp [Int.toNat_of_nonneg hpos.le]

/-- Witness for C3 at a concrete window of two days. -/
theorem claim3_witness :
    (findMissingArchives (fun _ => "x") 100 2 (.ok ["y"])).1
      = ((List.range (2 : Int).toNat).map (fun j : Nat => 100 - ((j : Int) + 1))).filter
          (fun d => !(["y"].contains ((fun _ => "x") d)))
    ∧ (findMissingArchives (fun _ => "x") 100 2 (.ok ["y"])).2 = none
    ∧ (findMissingArchives (fun _ => "x") 100 2 (.ok ["y"])).1.length
        ≤ (2 : Int).toNat :=
  claim3_gap_filter (fun _ => "x") 100 ["y"] 2 (by decide)

/-- Witness for C4 at a concrete window of three days. -/
theorem claim4_witness :
    (findMissingArchives (fun _ => "x") 50 3 (.error ())).2 = none
    ∧ (findMissingArchives (fun _ => "x") 50 3 (.error ())).1
        = (List.range (3 : Int).toNat).map (fun j : Nat => 50 - ((j : Int) + 1))
    ∧ (((findMissingArchives (fun _ => "x") 50 3 (.error ())).1.length : Int) = 3) :=
  claim4_fallback (fun _ => "x") 50 3 (by decide)

/-! ## Remote listing parser

Go strings are modelled as character lists here so that the operations of
getRemoteArchiveStructure's output parsing (strings.TrimSpace,
strings.TrimPrefix, strings.Split on a one-character separator, and the
"%s-%s-%s" join) are embedded as executable definitions. -/

abbrev GoStr := List Char

/-- ASCII whitespace recognized by strings.TrimSpace (the Unicode space
classes beyond ASCII do not occur in find output). -/
def goIsSpace (c : Char) : Bool :=
  c = ' ' || c = '\t' || c = '\n' || c = '\x0b' || c = '\x0c' || c = '\r'

def goTrimSpace (s : GoStr) : GoStr :=
  ((s.dropWhile goIsSpace).reverse.dropWhile goIsSpace).reverse

/-- Embedding of strings.TrimPrefix: remove the leading occurrence when
present, otherwise return the string unchanged. -/
def goTrimLeading (s pre : GoStr) : GoStr :=
  if pre.isPrefixOf s then s.drop pre.length else s

/-- Embedding of strings.Split with a one-character separator. -/
def splitOnChar (sep : Char) : GoStr → List GoStr
  | [] => [[]]
  | c :: rest =>
      let r := splitOnChar sep rest
      if c = sep then [] :: r
      else
        match r with
        | [] => [[c]]
        | g :: gs => (c :: g) :: gs

/-- The fmt.Sprintf("%s-%s-%s", ...) join of the path components. -/
def intercalateDash : List GoStr → GoStr
  | [] => []
  | [g] => g
  | g :: gs => g ++ '-' :: intercalateDash gs

/-- One iteration of the line loop of getRemoteArchiveStructure
(archiver.go lines 159-177): trim the line, skip it when blank, strip the
configured remote archive root and then a leading slash, split on '/',
and record a key exactly when that yields 3 components. -/
def parseArchiveLine (base : GoStr) (line : GoStr) : Option GoStr :=
  let l := goTrimSpace line
  if l = [] then none
  else
    let parts := splitOnChar '/' (goTrimLeading (goTrimLeading l base) ['/'])
    if parts.length = 3 then some (intercalateDash parts) else none

/-- Output parsing of getRemoteArchiveStructure (archiver.go lines
153-181): trim the combined output, build no keys when it is blank, else
split into lines and collect each line's key.  The Go map from ISO key to
true is represented by the list of recorded keys. -/
def remoteArchiveKeys (base : GoStr) (raw : GoStr) : List GoStr :=
  let out := goTrimSpace raw
  if out = [] then []
  else (splitOnChar '\n' out).filterMap (parseArchiveLine base)

/-- The components a line is split into after prefix stripping. -/
def lineComponents (base : GoStr) (line : GoStr) : List GoStr :=
  splitOnChar '/' (goTrimLeading (goTrimLeading (goTrimSpace line) base) ['/'])

theorem goTrimLeading_nil (pre : GoStr) : goTrimLeading [] pre = [] := by
  cases pre <;> simp [goTrimLeading, List.isPrefixOf]

/-- C9: a line of remote-listing output contributes an index key if and
only if stripping the remote root and a leading slash and splitting on
'/' yields exactly 3 components, the key being the components joined with
'-'; and the index holds exactly the keys so contributed by some line of
the (non-blank) trimmed output. -/
theorem claim9_parse_lines (base raw line : GoStr) (k : GoStr) :
    (parseArchiveLine base line = some k
      ↔ (lineComponents base line).length = 3
        ∧ k = intercalateDash (lineComponents base line))
    ∧ (k ∈ remoteArchiveKeys base raw
      ↔ goTrimSpace raw ≠ []
        ∧ ∃ l ∈ splitOnChar '\n' (goTrimSpace raw),
            parseArchiveLine base l = some k) := by
  constructor
  · by_cases hb : goTrimSpace line = []
    · have hcomp : lineComponents base line = [[]] := by
        simp [lineComponents, hb, goTrimLeading_nil, splitOnChar]
      simp [parseArchiveLine, hb, hcomp]
    · by_cases hp : (lineComponents base line).length = 3 <;>
        simp [parseArchiveLine, lineComponents, hb, hp, eq_comm] at hp ⊢ <;>
        simp [hp]
  · by_cases hb : goTrimSpace raw = []
    · simp [remoteArchiveKeys, hb]
    · simp [remoteArchiveKeys, hb, List.mem_filterMap]

/-- Witness for C9 at a concrete listing line under the root "/b": the
line yields exactly 3 components and the key 2024-06-07. -/
theorem claim9_witness :
    parseArchiveLine "/b".toList "/b/2024/06/07\n".toList
      = some "2024-06-07".toList :=
  (claim9_parse_lines "/b".toList "/b/2024/06/07".toList
      "/b/2024/06/07\n".toList "2024-06-07".toList).1.mpr
    ⟨by decide, by decide⟩

/-! ## Configuration loading

Embedding of internal/config/config.go after YAML unmarshalling: the
defaulting pass, the required-field checks, and validate.  The OS facts
Load consults (user home directory, ssh key file existence) come from a
`LoadEnv` oracle. -/

structure GoConfig where
  remoteUser : String
  sshPrivateKeyPath : String
  remoteHost : String
  loggingLevel : String
  remoteArchivePath : String
  localExportPath : String
  exportFormat : String
  copyMethod : String
  daysToCheck : Int
  deriving DecidableEq

structure LoadEnv where
  homeDir : String
  homeDirOk : Bool
  sshKeyExists : Bool
  deriving DecidableEq

/-- The defaulting pass of Load (config.go lines 35-51); the five
assignments touch disjoint fields, so they are written as one record
update.  In particular DaysToCheck becomes 7 exactly when it is 0. -/
def setDefaults (env : LoadEnv) (c : GoConfig) : GoConfig :=
  { c with
    loggingLevel := if c.loggingLevel = "" then "info" else c.loggingLevel,
    localExportPath :=
      if c.localExportPath = "" then
        env.homeDir ++ "/Library/Application Support/iMessage Archive"
      else c.localExportPath,
    exportFormat := if c.exportFormat = "" then "txt" else c.exportFormat,
    copyMethod := if c.copyMethod = "" then "basic" else c.copyMethod,
    daysToCheck := if c.daysToCheck = 0 then 7 else c.daysToCheck }

def validLogLevels : List String := ["debug", "info", "warn", "error"]

def validFormats : List String := ["txt", "html"]

def validCopyMethods : List String := ["clone", "basic", "full", "disabled"]

/-- The validate method (config.go lines 74-118): `some msg` is an error.
It never inspects DaysToCheck. -/
def validateConfig (env : LoadEnv) (c : GoConfig) : Option String :=
  if c.remoteUser = "" then some "remote_user is required"
  else if c.sshPrivateKeyPath = "" then some "ssh_private_key_path is required"
  else if c.sshPrivateKeyPath.startsWith "~/" && !env.homeDirOk then
    some "failed to get user home directory"
  else if !env.sshKeyExists then some "ssh private key file does not exist"
  else if c.remoteHost = "" then some "remote_host is required"
  else if c.remoteArchivePath = "" then some "remote_archive_path is required"
  else if !validLogLevels.contains c.loggingLevel then some "invalid logging_level"
  else if !validFormats.contains c.exportFormat then some "invalid export_format"
  else if !validCopyMethods.contains c.copyMethod then some "invalid copy_method"
  else none

/-- Load after unmarshalling (config.go lines 24-72): defaults, required
fields, then validate. -/
def loadConfig (env : LoadEnv) (c : GoConfig) : Except String GoConfig :=
  let c2 := setDefaults env c
  if c2.remoteUser = "" then .error "remote_user is required in config"
  else if c2.sshPrivateKeyPath = "" then
    .error "ssh_private_key_path is required in config"
  else if c2.remoteHost = "" then .error "remote_host is required in config"
  else if c2.remoteArchivePath = "" then
    .error "remote_archive_path is required in config"
  else
    match validateConfig env c2 with
    | some msg => .error ("invalid configuration: " ++ msg)
    | none => .ok c2

/-- C10: the DaysToCheck default fires only on the exact value 0, so
negative values survive loading and validation unchanged (validate never
reads the field); for any nonpositive window both findMissingArchives
paths return an empty list, and Run on an empty date list returns nil
having invoked neither export nor sync. -/
theorem claim10_days_to_check (env : LoadEnv) (c : GoConfig) :
    ((setDefaults env c).daysToCheck
        = if c.daysToCheck = 0 then 7 else c.daysToCheck)
    ∧ (∀ out, loadConfig env c = .ok out →
        out.daysToCheck = if c.daysToCheck = 0 then 7 else c.daysToCheck)
    ∧ (∀ d : Int, validateConfig env (setDefaults env { c with daysToCheck := d })
        = validateConfig env (setDefaults env c))
    ∧ (∀ d : Int, d ≤ 0 → ∀ (fmt : Int → String) (today : Int) (keys : List String),
        (findMissingArchives fmt today d (.ok keys)).1 = []
        ∧ (findMissingArchives fmt today d (.error ())).1 = [])
    ∧ (∀ (root : List String) (syncOk cOk : Bool) (fs0 : FSTree),
        (run root [] syncOk cOk fs0).err = none
        ∧ (run root [] syncOk cOk fs0).attempted = 0
        ∧ (run root [] syncOk cOk fs0).syncCount = 0) := by
  refine ⟨rfl, ?_, ?_, ?_, ?_⟩
  · intro out h
    simp only [loadConfig] at h
    split_ifs at h <;> try exact absurd h (by simp)
    split at h
    · exact absurd h (by simp)
    · injection h with h2
      subst h2
      rfl
  · intro d
    simp [validateConfig, setDefaults]
  · intro d hd fmt today keys
    have ht : d.toNat = 0 := Int.toNat_of_nonpos hd
    exact ⟨by simp [findMissingArchives, ht, missingLoop],
      by simp [findMissingArchives, ht, windowLoop]⟩
  · intro root syncOk cOk fs0
    exact ⟨rfl, rfl, rfl⟩

/-- Witness for C10: a fully valid configuration with DaysToCheck = -3
keeps -3 through loading, and a nonpositive window yields no dates and a
clean no-op run. -/
theorem claim10_witness :
    ((setDefaults ⟨"/Users/u", true, true⟩
        ⟨"u", "/key", "host", "info", "/backups", "", "txt", "basic", -3⟩).daysToCheck
      = if (-3 : Int) = 0 then 7 else (-3 : Int))
    ∧ (setDefaults ⟨"/Users/u", true, true⟩
        ⟨"u", "/key", "host", "info", "/backups", "", "txt", "basic", -3⟩).daysToCheck = -3
    ∧ (findMissingArchives (fun _ => "x") 10 (-3) (.ok [])).1 = []
    ∧ (findMissingArchives (fun _ => "x") 10 (-3) (.error ())).1 = []
    ∧ (run ["tmp"] [] true true (.dir [])).err = none := by
  have h := claim10_days_to_check ⟨"/Users/u", true, true⟩
    ⟨"u", "/key", "host", "info", "/backups", "", "txt", "basic", -3⟩
  refine ⟨h.1, by decide, ?_, ?_, ?_⟩
  · exact (h.2.2.2.1 (-3) (by decide) (fun _ => "x") 10 []).1
  · exact (h.2.2.2.1 (-3) (by decide) (fun _ => "x") 10 []).2
  · exact (h.2.2.2.2 ["tmp"] true true (.dir [])).1

end IMessageArchiver
